import Mathlib

/-!
Verification of the SpiceDB permission-evaluation core against its
natural-language specification.

The development shallowly embeds:
  * the protobuf validation rules of `proto/internal/core/v1/core.proto`
    (message `ObjectAndRelation`, `CaveatDefinition`, `UsersetRewrite`,
    `SetOperation`);
  * the reachability-graph entrypoint construction (spec section 4.2 and the
    doc comments on `ReachabilityEntrypoint`);
  * the optimized-revision cache with single-flight refresh (spec section 4.3
    and the tests in `internal/datastore/revisions`);
  * the context-severing datastore proxy (`internal/datastore/proxy`,
    `SeparateContextWithTracing` and `ctxProxy` / `ctxReader`);
  * the CockroachDB datastore option configuration
    (`internal/datastore/crdb/options.go`, `generateConfig`);
  * the read-only service behaviour (spec section 7, `UNAVAILABLE`).
-/

namespace Proto

/-! ## Character classes used by the validation regexes of core.proto -/

/-- Matches the regex class `[a-z]`. -/
def isLowerAlpha (c : Char) : Bool := 'a' ≤ c && c ≤ 'z'

/-- Matches the regex class `[0-9]`. -/
def isDigit (c : Char) : Bool := '0' ≤ c && c ≤ '9'

/-- Matches the regex class `[a-z0-9]`. -/
def isLowerAlnum (c : Char) : Bool := isLowerAlpha c || isDigit c

/-- Matches the regex class `[a-z0-9_]`. -/
def isLowerAlnumUnd (c : Char) : Bool := isLowerAlnum c || c = '_'

/-- Matches the regex class `[A-Z]`. -/
def isUpperAlpha (c : Char) : Bool := 'A' ≤ c && c ≤ 'Z'

/-- Matches the regex class `[a-zA-Z0-9]`. -/
def isAlnum (c : Char) : Bool := isLowerAlpha c || isUpperAlpha c || isDigit c

/-- Matches the regex class `[a-zA-Z0-9/_|\-=+]` used by the `object_id`
pattern of message `ObjectAndRelation` in core.proto. -/
def isObjectIdChar (c : Char) : Bool :=
  isAlnum c || c = '/' || c = '_' || c = '|' || c = '-' || c = '=' || c = '+'

/-- Matches the regex class `[a-zA-Z0-9_]`, the first character of the
caveat-name pattern in core.proto. -/
def isCaveatNameStart (c : Char) : Bool := isAlnum c || c = '_'

/-- Matches the regex class `[a-zA-Z0-9/_|-]`, the trailing characters of the
caveat-name pattern in core.proto. -/
def isCaveatNameChar (c : Char) : Bool :=
  isAlnum c || c = '/' || c = '_' || c = '|' || c = '-'

/-- UTF-8 byte length of a string, used for the `max_bytes` validation rules. -/
def utf8Len (s : String) : Nat := s.toList.foldl (fun n c => n + c.utf8Size) 0

/-- Matches the regex `[a-z][a-z0-9_]{1,midMax}[a-z0-9]`: a lowercase letter,
then between 1 and `midMax` characters of `[a-z0-9_]`, then one `[a-z0-9]`.
core.proto uses `midMax = 62` for relation names and the final namespace
segment, and `midMax = 61` for the optional namespace prefix segment. -/
def matchLowerIdent (midMax : Nat) (s : List Char) : Bool :=
  3 ≤ s.length && s.length ≤ midMax + 2 &&
  (match s with
   | [] => false
   | c :: _ => isLowerAlpha c) &&
  ((s.drop 1).dropLast.all isLowerAlnumUnd) &&
  (match s.getLast? with
   | some c => isLowerAlnum c
   | none => false)

/-- Splits a character list at its first `/`, if any. -/
def splitAtSlash : List Char → Option (List Char × List Char)
  | [] => none
  | c :: rest =>
    if c = '/' then some ([], rest)
    else
      match splitAtSlash rest with
      | some (a, b) => some (c :: a, b)
      | none => none

/-- Matches the namespace pattern of core.proto:
`^([a-z][a-z0-9_]{1,61}[a-z0-9]/)?[a-z][a-z0-9_]{1,62}[a-z0-9]$`.
Since neither segment admits `/`, matching the regex is equivalent to
splitting at the first slash and matching each segment. -/
def matchNamespacePattern (s : String) : Bool :=
  match splitAtSlash s.toList with
  | none => matchLowerIdent 62 s.toList
  | some (a, b) => matchLowerIdent 61 a && matchLowerIdent 62 b

/-- Matches the object_id pattern of core.proto:
`^(([a-zA-Z0-9/_|\-=+]{1,})|\*)$`. -/
def matchObjectIdPattern (s : String) : Bool :=
  s = "*" || (s.toList.length ≥ 1 && s.toList.all isObjectIdChar)

/-- Matches the relation pattern of core.proto:
`^(\.\.\.|[a-z][a-z0-9_]{1,62}[a-z0-9])$`. -/
def matchRelationPattern (s : String) : Bool :=
  s = "..." || matchLowerIdent 62 s.toList

/-- Stated from the spec's words (section 3): the "lowercase identifier
pattern" that `namespace` and `relation` are said to match, i.e.
`[a-z][a-z0-9_]{1,62}[a-z0-9]`, without the ellipsis alternative that the
code's relation pattern additionally accepts. -/
def specLowercaseIdentifier (s : String) : Bool := matchLowerIdent 62 s.toList

/-- Message `ObjectAndRelation` of core.proto: the triple
`(namespace, object_id, relation)`. -/
structure ObjectAndRelation where
  namespc : String
  objectId : String
  relationName : String
deriving Repr, DecidableEq

/-- The protoc-gen-validate rules on message `ObjectAndRelation`
(core.proto lines 61-79): each field must match its pattern and respect its
`max_bytes` bound (128 for namespace, 1024 for object_id, 64 for relation). -/
def validObjectAndRelation (o : ObjectAndRelation) : Bool :=
  matchNamespacePattern o.namespc && utf8Len o.namespc ≤ 128 &&
  matchObjectIdPattern o.objectId && utf8Len o.objectId ≤ 1024 &&
  matchRelationPattern o.relationName && utf8Len o.relationName ≤ 64

/-! ## CaveatDefinition validation (core.proto lines 36-59) -/

/-- Matches the caveat-name pattern of core.proto:
`^(([a-zA-Z0-9_][a-zA-Z0-9/_|-]{0,127})|\*)$`. -/
def matchCaveatNamePattern (s : String) : Bool :=
  s = "*" ||
  (match s.toList with
   | [] => false
   | c :: rest => isCaveatNameStart c && rest.length ≤ 127 && rest.all isCaveatNameChar)

/-- Message `CaveatTypeReference` of core.proto: a type name together with
child type references. -/
inductive CaveatTypeReference where
  | mk : String → List CaveatTypeReference → CaveatTypeReference

mutual

/-- The validation rule on `CaveatTypeReference` (core.proto lines 56-59):
`child_types` carries between 0 and 1 items (`min_items: 0, max_items: 1`),
recursively valid. -/
def validCaveatTypeReference : CaveatTypeReference → Bool
  | .mk _ children => children.length ≤ 1 && validCaveatTypeReferences children

/-- Validity of a list of `CaveatTypeReference`s. -/
def validCaveatTypeReferences : List CaveatTypeReference → Bool
  | [] => true
  | c :: rest => validCaveatTypeReference c && validCaveatTypeReferences rest

end

/-- Message `CaveatDefinition` of core.proto: name, serialized expression
bytes and the map from parameter name to type. The optional compiler
`metadata` and `source_position` fields carry no validation rules relevant
to the definition's bounds and are omitted. `parameter_types` is modelled as
an association list; protobuf map keys are unique but uniqueness is not part
of the validate rules checked here. Serialized bytes are modelled as a list
of byte values. -/
structure CaveatDefinition where
  name : String
  serializedExpression : List Nat
  parameterTypes : List (String × CaveatTypeReference)

/-- The protoc-gen-validate rules on message `CaveatDefinition`
(core.proto lines 36-54): the name matches the caveat-name pattern within
128 bytes, `serialized_expression` holds at most 4096 bytes
(`min_len: 0, max_len: 4096`), `parameter_types` has between 1 and 20 pairs
(`min_pairs: 1, max_pairs: 20`), and every referenced type is itself valid. -/
def validCaveatDefinition (cd : CaveatDefinition) : Bool :=
  matchCaveatNamePattern cd.name && utf8Len cd.name ≤ 128 &&
  cd.serializedExpression.length ≤ 4096 &&
  1 ≤ cd.parameterTypes.length && cd.parameterTypes.length ≤ 20 &&
  cd.parameterTypes.all fun p => validCaveatTypeReference p.2

/-! ## UsersetRewrite and SetOperation validation (core.proto lines 399-472) -/

mutual

/-- Message `UsersetRewrite` of core.proto: the required oneof
`rewrite_operation` holding a union, intersection or exclusion
`SetOperation`. -/
inductive UsersetRewrite where
  | union : SetOperation → UsersetRewrite
  | intersection : SetOperation → UsersetRewrite
  | exclusion : SetOperation → UsersetRewrite

/-- Message `SetOperation` of core.proto: a repeated list of children. -/
inductive SetOperation where
  | mk : List SetOperationChild → SetOperation

/-- Message `SetOperation.Child` of core.proto: the required oneof
`child_type`, one of `_this`, `computed_userset` (carrying the relation
name), `tuple_to_userset` (carrying the tupleset relation and the computed
relation), a nested `userset_rewrite`, or `_nil`. -/
inductive SetOperationChild where
  | this : SetOperationChild
  | computedUserset : String → SetOperationChild
  | tupleToUserset : String → String → SetOperationChild
  | usersetRewrite : UsersetRewrite → SetOperationChild
  | nil : SetOperationChild

end

/-- Children of a `SetOperation`. -/
def SetOperation.children : SetOperation → List SetOperationChild
  | .mk cs => cs

mutual

/-- The validation rule on `UsersetRewrite`: whichever variant of the oneof
is present, its `SetOperation` must be valid. -/
def validUsersetRewrite : UsersetRewrite → Bool
  | .union so => validSetOperation so
  | .intersection so => validSetOperation so
  | .exclusion so => validSetOperation so

/-- The validation rule on `SetOperation` (core.proto lines 440-443):
`repeated Child child` with `min_items = 1` and each item valid. No upper
bound and no per-variant constraint is imposed. -/
def validSetOperation : SetOperation → Bool
  | .mk children => 1 ≤ children.length && validSetOperationChildren children

/-- Validity of a list of `SetOperation.Child` items. -/
def validSetOperationChildren : List SetOperationChild → Bool
  | [] => true
  | c :: rest => validSetOperationChild c && validSetOperationChildren rest

/-- The validation rule on `SetOperation.Child`: a nested rewrite must be
valid; the remaining variants carry pattern rules on their relation-name
strings, which do not affect the operand-arity claims and are taken as
satisfied by the embedded (well-typed) names. -/
def validSetOperationChild : SetOperationChild → Bool
  | .usersetRewrite r => validUsersetRewrite r
  | _ => true

end

end Proto

namespace Reach

/-! ## Reachability graph entrypoints

Modelled from the spec: the reachability-graph construction
(`internal/namespace`'s reachability builder) is not among the provided
source files; only the serialized form (`ReachabilityEntrypoint` in
core.proto, with its doc comments) and spec section 4.2 describe it. The
model walks a permission's rewrite tree once, recording one entrypoint per
`_this` / `computed_userset` / `tuple_to_userset` leaf; `_nil` contributes
no entrypoints. Walking into the children of a union keeps the current
result status; walking into the children of an intersection or exclusion
switches it to conditional, per the doc comments on
`EntrypointResultStatus` in core.proto. -/

/-- The operation of a `SetOperation` node of a rewrite tree. -/
inductive SetOpType where
  | union : SetOpType
  | intersection : SetOpType
  | exclusion : SetOpType
deriving Repr, DecidableEq

/-- Enum `EntrypointResultStatus` of message `ReachabilityEntrypoint`. -/
inductive EntrypointResultStatus where
  | reachableConditionalResult : EntrypointResultStatus
  | directOperationResult : EntrypointResultStatus
deriving Repr, DecidableEq

/-- Enum `ReachabilityEntrypointKind` of message `ReachabilityEntrypoint`. -/
inductive EntrypointKind where
  | relationEntrypoint : EntrypointKind
  | computedUsersetEntrypoint : EntrypointKind
  | tuplesetToUsersetEntrypoint : EntrypointKind
deriving Repr, DecidableEq

/-- A rewrite tree: set-operation nodes (`union`/`intersection`/`exclusion`,
each with an ordered list of children) over the leaves `_this`,
`computed_userset`, `tuple_to_userset` and `_nil` (spec section 3,
`UsersetRewrite`). The `UsersetRewrite`/`SetOperation.Child` message nesting
is flattened into a single tree; each child's position is the index path
from the root, as in the proto's `operation_path`. -/
inductive RewriteNode where
  | this : RewriteNode
  | computedUserset : String → RewriteNode
  | tupleToUserset : String → String → RewriteNode
  | nilLeaf : RewriteNode
  | op : SetOpType → List RewriteNode → RewriteNode

/-- An entrypoint produced by walking a rewrite tree: the operation path of
the leaf that produced it, its kind and its result status. -/
structure Entrypoint where
  path : List Nat
  kind : EntrypointKind
  status : EntrypointResultStatus
deriving Repr, DecidableEq

/-- Modelled from the spec: the result status handed to the children of a
set operation. A union passes the current status through; an intersection
or exclusion makes every descendant conditional. -/
def childStatus (t : SetOpType) (st : EntrypointResultStatus) : EntrypointResultStatus :=
  match t with
  | .union => st
  | .intersection => .reachableConditionalResult
  | .exclusion => .reachableConditionalResult

mutual

/-- Modelled from the spec: the entrypoints contributed by a rewrite node
walked with result status `st`, paths relative to that node. -/
def entrypointsOfNode (st : EntrypointResultStatus) : RewriteNode → List Entrypoint
  | .this => [⟨[], .relationEntrypoint, st⟩]
  | .computedUserset _ => [⟨[], .computedUsersetEntrypoint, st⟩]
  | .tupleToUserset _ _ => [⟨[], .tuplesetToUsersetEntrypoint, st⟩]
  | .nilLeaf => []
  | .op t children => entrypointsOfChildren (childStatus t st) 0 children

/-- Entrypoints of a list of children starting at index `i`, each child's
index prepended to the paths it contributes. -/
def entrypointsOfChildren (st : EntrypointResultStatus) (i : Nat) :
    List RewriteNode → List Entrypoint
  | [] => []
  | c :: rest =>
    ((entrypointsOfNode st c).map fun e => ⟨i :: e.path, e.kind, e.status⟩) ++
    entrypointsOfChildren st (i + 1) rest

end

/-- All entrypoints of a permission's rewrite tree. The walk starts in
direct status: an entrypoint stays direct exactly while only unions are
crossed. -/
def entrypoints (root : RewriteNode) : List Entrypoint :=
  entrypointsOfNode .directOperationResult root

/-- The set operations of the ancestors of the position `path` inside the
rewrite tree, from the root downward. -/
def opsOnPath : List Nat → RewriteNode → List SetOpType
  | [], _ => []
  | i :: rest, node =>
    match node with
    | .op t children =>
      t ::
        (match children.get? i with
         | some c => opsOnPath rest c
         | none => [])
    | _ => []

/-- Whether a set operation is a union. -/
def SetOpType.isUnion : SetOpType → Bool
  | .union => true
  | .intersection => false
  | .exclusion => false

end Reach

namespace Revisions

/-! ## Optimized-revision cache with single-flight refresh

Modelled from the spec: the implementation of `NewCachedOptimizedRevisions`
(`internal/datastore/revisions`) is not among the provided source files;
only its tests (`TestOptimizedRevisionCache`,
`TestOptimizedRevisionCacheSingleFlight`, `TestSingleFlightError`) are.
The model follows spec section 4.3: the cache holds `(revision,
valid_until)`; a request at `now < valid_until` returns the cached
revision; otherwise it starts a refresh if none is in flight, or joins the
in-flight one; a completed refresh `(revision, validity)` at time `now`
stores `valid_until = now + validity + max_staleness` and answers every
joined waiter; an erroring refresh fails every joined waiter with the same
error and caches nothing. -/

/-- A datastore revision: an opaque comparable token (decimal-valued in the
tests), modelled as an integer. -/
abbrev Revision := Int

/-- State of the cache: the cached `(revision, valid_until)` pair, the
identities of callers joined on the in-flight refresh (if one is in
flight), the number of invocations of the datastore's optimized-revision
function, and the log of outcomes delivered to callers (latest first). -/
structure CacheState where
  cached : Option (Revision × Int)
  inflight : Option (List Nat)
  fetchCount : Nat
  delivered : List (Nat × Except String Revision)

/-- The cache before any request. -/
def initialState : CacheState := ⟨none, none, 0, []⟩

/-- Spec section 4.3 step 1: the cached revision answers a request at `now`
exactly when `now < valid_until`. -/
def cacheValidAt (cached : Option (Revision × Int)) (now : Int) : Bool :=
  match cached with
  | some (_, validUntil) => now < validUntil
  | none => false

/-- An event of the cache: a caller's `OptimizedRevision` request at a
time, or the completion of the in-flight refresh with either a
`(revision, validity_duration)` pair or an error. -/
inductive CacheEvent where
  | arrive : Nat → Int → CacheEvent
  | complete : Int → Except String (Revision × Int) → CacheEvent

/-- Spec section 4.3 step 2, cache miss: join the in-flight refresh if one
exists, otherwise start one (invoking the datastore's optimized-revision
function). -/
def stepArriveMiss (st : CacheState) (id : Nat) : CacheState :=
  match st.inflight with
  | some ws => { st with inflight := some (id :: ws) }
  | none => { st with inflight := some [id], fetchCount := st.fetchCount + 1 }

/-- The waiters joined on the in-flight refresh. -/
def joinedWaiters : Option (List Nat) → List Nat
  | some ws => ws
  | none => []

/-- One step of the cache, with configured staleness budget
`maxStaleness`. An arrival is answered from the cache when valid (step 1),
otherwise joins or starts a refresh (step 2). A successful completion at
time `now` stores `valid_until = now + validity + maxStaleness` (step 3)
and answers all joined waiters with the fetched revision; an erroring
completion fails all joined waiters with that error and leaves the cached
entry unchanged (step 4). -/
def step (maxStaleness : Int) (st : CacheState) : CacheEvent → CacheState
  | .arrive id now =>
    match st.cached with
    | some (r, validUntil) =>
      if now < validUntil then { st with delivered := (id, Except.ok r) :: st.delivered }
      else stepArriveMiss st id
    | none => stepArriveMiss st id
  | .complete now result =>
    match result with
    | .ok (r, validity) =>
      { cached := some (r, now + validity + maxStaleness)
        inflight := none
        fetchCount := st.fetchCount
        delivered :=
          ((joinedWaiters st.inflight).map fun id => (id, Except.ok r)) ++ st.delivered }
    | .error e =>
      { st with
        inflight := none
        delivered :=
          ((joinedWaiters st.inflight).map fun id => (id, Except.error e)) ++ st.delivered }

/-- Run a sequence of events through the cache. -/
def runEvents (maxStaleness : Int) (st : CacheState) (events : List CacheEvent) : CacheState :=
  events.foldl (step maxStaleness) st

/-- The arrival events of a list of `(caller id, time)` pairs. -/
def arrivalsOf (callers : List (Nat × Int)) : List CacheEvent :=
  callers.map fun p => CacheEvent.arrive p.1 p.2

/-- Modelled from the spec: the sequential caller loop of
`TestOptimizedRevisionCache`. At each call time, a valid cached revision is
returned as-is; otherwise the next mocked response `(revision, validity)`
is consumed, cached with `valid_until = now + validity + maxStaleness`, and
returned. Returns the list of revisions observed by the caller. -/
def runSequential (maxStaleness : Int) :
    List Int → Option (Revision × Int) → List (Revision × Int) → List Revision
  | [], _, _ => []
  | now :: rest, cached, responses =>
    match cached with
    | some (r, validUntil) =>
      if now < validUntil then r :: runSequential maxStaleness rest cached responses
      else
        match responses with
        | (r', v) :: rs =>
          r' :: runSequential maxStaleness rest (some (r', now + v + maxStaleness)) rs
        | [] => []
    | none =>
      match responses with
      | (r', v) :: rs =>
        r' :: runSequential maxStaleness rest (some (r', now + v + maxStaleness)) rs
      | [] => []

end Revisions

namespace Proxy

/-! ## Context-severing datastore proxy
(`internal/datastore/proxy`, second document of
`src/internal/datastore/crdb/options.go`) -/

/-- The aspects of a Go `context.Context` that the proxy manipulates: the
tracing span (`trace.SpanFromContext` / `trace.ContextWithSpan`), the
zerolog logger (`log.Ctx` / `logger.WithContext`), and the
deadline/cancellation state. Spans, loggers and cancel signals are
abstracted as identifiers; `context.Background()` carries none of them. -/
structure Context where
  span : Option Nat
  logger : Option Nat
  deadline : Option Int
  cancelSignal : Option Nat
deriving Repr, DecidableEq

/-- `SeparateContextWithTracing`: builds on `context.Background()` (no
deadline, no cancellation), attaches the span of the incoming context, and
attaches its logger when one is present (when none is present the
background context likewise carries none, so the logger field is copied
either way). -/
def SeparateContextWithTracing (ctx : Context) : Context :=
  ⟨ctx.span, ctx.logger, none, none⟩

/-- The context-accepting methods of `ctxProxy` and `ctxReader`
(`RevisionFromString`, `Close`, `SnapshotReader` and `Unwrap` take no
context and are not listed). -/
inductive DatastoreMethod where
  | readWriteTx : DatastoreMethod
  | optimizedRevision : DatastoreMethod
  | checkRevision : DatastoreMethod
  | headRevision : DatastoreMethod
  | watch : DatastoreMethod
  | features : DatastoreMethod
  | statistics : DatastoreMethod
  | readyState : DatastoreMethod
  | readCaveatByName : DatastoreMethod
  | listAllCaveats : DatastoreMethod
  | lookupCaveatsWithNames : DatastoreMethod
  | listAllNamespaces : DatastoreMethod
  | lookupNamespacesWithNames : DatastoreMethod
  | readNamespaceByName : DatastoreMethod
  | queryRelationships : DatastoreMethod
  | reverseQueryRelationships : DatastoreMethod
deriving Repr, DecidableEq

/-- The context each proxy method passes to its delegate, transcribed
method-by-method from `ctxProxy` and `ctxReader`: `ReadWriteTx` and
`Watch` forward the incoming context unchanged; every other method wraps
it in `SeparateContextWithTracing`. -/
def delegateContext : DatastoreMethod → Context → Context
  | .readWriteTx, ctx => ctx
  | .optimizedRevision, ctx => SeparateContextWithTracing ctx
  | .checkRevision, ctx => SeparateContextWithTracing ctx
  | .headRevision, ctx => SeparateContextWithTracing ctx
  | .watch, ctx => ctx
  | .features, ctx => SeparateContextWithTracing ctx
  | .statistics, ctx => SeparateContextWithTracing ctx
  | .readyState, ctx => SeparateContextWithTracing ctx
  | .readCaveatByName, ctx => SeparateContextWithTracing ctx
  | .listAllCaveats, ctx => SeparateContextWithTracing ctx
  | .lookupCaveatsWithNames, ctx => SeparateContextWithTracing ctx
  | .listAllNamespaces, ctx => SeparateContextWithTracing ctx
  | .lookupNamespacesWithNames, ctx => SeparateContextWithTracing ctx
  | .readNamespaceByName, ctx => SeparateContextWithTracing ctx
  | .queryRelationships, ctx => SeparateContextWithTracing ctx
  | .reverseQueryRelationships, ctx => SeparateContextWithTracing ctx

end Proxy

namespace Crdb

/-! ## CockroachDB datastore options (`internal/datastore/crdb/options.go`) -/

/-- One nanosecond-valued `time.Duration` second. -/
def secondNs : Int := 1000000000

/-- `pgxcommon.PoolOptions`: the pool fields touched by the options in
options.go. Go pointer fields are `Option`-valued; the zero value carries
`none` everywhere. Durations are in nanoseconds. -/
structure PoolOptions where
  connHealthCheckInterval : Option Int
  connMaxIdleTime : Option Int
  connMaxLifetime : Option Int
  connMaxLifetimeJitter : Option Int
  minOpenConns : Option Int
  maxOpenConns : Option Int
deriving Repr, DecidableEq

/-- The zero value of `pgxcommon.PoolOptions`. -/
def PoolOptions.zero : PoolOptions := ⟨none, none, none, none, none, none⟩

/-- Struct `crdbOptions` of options.go. `time.Duration` fields are
nanosecond integers; `uint16`/`uint8` fields are naturals;
`maxRevisionStalenessPercent` (a Go `float64` on which `generateConfig`
performs no arithmetic) is a rational. -/
structure crdbOptions where
  readPoolOpts : PoolOptions
  writePoolOpts : PoolOptions
  watchBufferLength : Nat
  revisionQuantization : Int
  followerReadDelay : Int
  maxRevisionStalenessPercent : Rat
  gcWindow : Int
  maxRetries : Nat
  splitAtUsersetCount : Nat
  overlapStrategy : String
  overlapKey : String
  disableStats : Bool
  enablePrometheusStats : Bool
deriving Repr, DecidableEq

/-- The error produced when `revisionQuantization >= gcWindow`
(`errQuantizationTooLarge`, formatted with both durations). -/
inductive ConfigError where
  | quantizationTooLarge : Int → Int → ConfigError
deriving Repr, DecidableEq

/-- `Option func(*crdbOptions)` of options.go: a configuration mutator. -/
abbrev ConfigOption := crdbOptions → crdbOptions

/-- The `computed` initial value built at the top of `generateConfig`:
`gcWindow` 24 hours, `watchBufferLength` 128 (`defaultWatchBufferLength`),
`revisionQuantization` 5 seconds (`defaultRevisionQuantization`),
`followerReadDelay` 0 (`defaultFollowerReadDelay`),
`maxRevisionStalenessPercent` 0.1 (`defaultMaxRevisionStalenessPercent`),
`splitAtUsersetCount` 1024 (`defaultSplitSize`), `maxRetries` 5
(`defaultMaxRetries`), `overlapKey` "defaultsynckey"
(`defaultOverlapKey`), `overlapStrategy` "static"
(`defaultOverlapStrategy`), `disableStats` false and
`enablePrometheusStats` false (`defaultEnablePrometheusStats`); pool
options keep their zero value. -/
def defaultConfig : crdbOptions :=
  { readPoolOpts := PoolOptions.zero
    writePoolOpts := PoolOptions.zero
    watchBufferLength := 128
    revisionQuantization := 5 * secondNs
    followerReadDelay := 0
    maxRevisionStalenessPercent := 1 / 10
    gcWindow := 24 * 3600 * secondNs
    maxRetries := 5
    splitAtUsersetCount := 1024
    overlapStrategy := "static"
    overlapKey := "defaultsynckey"
    disableStats := false
    enablePrometheusStats := false }

/-- The fold `for _, option := range options { option(&computed) }` of
`generateConfig`: options applied to the defaults in list order. -/
def applyOptions (options : List ConfigOption) : crdbOptions :=
  options.foldl (fun c o => o c) defaultConfig

/-- `generateConfig` of options.go: applies the options to the defaults in
list order, then errors when `computed.revisionQuantization >=
computed.gcWindow` (returning the computed config alongside the error,
exactly as the Go function does). -/
def generateConfig (options : List ConfigOption) : crdbOptions × Option ConfigError :=
  let computed := applyOptions options
  if computed.revisionQuantization ≥ computed.gcWindow then
    (computed, some (ConfigError.quantizationTooLarge computed.revisionQuantization computed.gcWindow))
  else
    (computed, none)

/-- Option `SplitAtUsersetCount` of options.go. -/
def SplitAtUsersetCount (v : Nat) : ConfigOption :=
  fun po => { po with splitAtUsersetCount := v }

/-- Option `ReadConnHealthCheckInterval` of options.go. -/
def ReadConnHealthCheckInterval (v : Int) : ConfigOption :=
  fun po => { po with readPoolOpts := { po.readPoolOpts with connHealthCheckInterval := some v } }

/-- Option `WriteConnHealthCheckInterval` of options.go. -/
def WriteConnHealthCheckInterval (v : Int) : ConfigOption :=
  fun po => { po with writePoolOpts := { po.writePoolOpts with connHealthCheckInterval := some v } }

/-- Option `ReadConnMaxIdleTime` of options.go. -/
def ReadConnMaxIdleTime (v : Int) : ConfigOption :=
  fun po => { po with readPoolOpts := { po.readPoolOpts with connMaxIdleTime := some v } }

/-- Option `WriteConnMaxIdleTime` of options.go. -/
def WriteConnMaxIdleTime (v : Int) : ConfigOption :=
  fun po => { po with writePoolOpts := { po.writePoolOpts with connMaxIdleTime := some v } }

/-- Option `ReadConnMaxLifetime` of options.go. -/
def ReadConnMaxLifetime (v : Int) : ConfigOption :=
  fun po => { po with readPoolOpts := { po.readPoolOpts with connMaxLifetime := some v } }

/-- Option `ReadConnMaxLifetimeJitter` of options.go. -/
def ReadConnMaxLifetimeJitter (v : Int) : ConfigOption :=
  fun po => { po with readPoolOpts := { po.readPoolOpts with connMaxLifetimeJitter := some v } }

/-- Option `WriteConnMaxLifetime` of options.go. -/
def WriteConnMaxLifetime (v : Int) : ConfigOption :=
  fun po => { po with writePoolOpts := { po.writePoolOpts with connMaxLifetime := some v } }

/-- Option `WriteConnMaxLifetimeJitter` of options.go. -/
def WriteConnMaxLifetimeJitter (v : Int) : ConfigOption :=
  fun po => { po with writePoolOpts := { po.writePoolOpts with connMaxLifetimeJitter := some v } }

/-- Option `ReadConnsMinOpen` of options.go. -/
def ReadConnsMinOpen (v : Int) : ConfigOption :=
  fun po => { po with readPoolOpts := { po.readPoolOpts with minOpenConns := some v } }

/-- Option `WriteConnsMinOpen` of options.go. -/
def WriteConnsMinOpen (v : Int) : ConfigOption :=
  fun po => { po with writePoolOpts := { po.writePoolOpts with minOpenConns := some v } }

/-- Option `ReadConnsMaxOpen` of options.go. -/
def ReadConnsMaxOpen (v : Int) : ConfigOption :=
  fun po => { po with readPoolOpts := { po.readPoolOpts with maxOpenConns := some v } }

/-- Option `WriteConnsMaxOpen` of options.go. -/
def WriteConnsMaxOpen (v : Int) : ConfigOption :=
  fun po => { po with writePoolOpts := { po.writePoolOpts with maxOpenConns := some v } }

/-- Option `WatchBufferLength` of options.go. -/
def WatchBufferLength (v : Nat) : ConfigOption :=
  fun po => { po with watchBufferLength := v }

/-- Option `RevisionQuantization` of options.go. -/
def RevisionQuantization (v : Int) : ConfigOption :=
  fun po => { po with revisionQuantization := v }

/-- Option `FollowerReadDelay` of options.go. -/
def FollowerReadDelay (v : Int) : ConfigOption :=
  fun po => { po with followerReadDelay := v }

/-- Option `MaxRevisionStalenessPercent` of options.go. -/
def MaxRevisionStalenessPercent (v : Rat) : ConfigOption :=
  fun po => { po with maxRevisionStalenessPercent := v }

/-- Option `GCWindow` of options.go. -/
def GCWindow (v : Int) : ConfigOption :=
  fun po => { po with gcWindow := v }

/-- Option `MaxRetries` of options.go. -/
def MaxRetries (v : Nat) : ConfigOption :=
  fun po => { po with maxRetries := v }

/-- Option `OverlapStrategy` of options.go. -/
def OverlapStrategy (v : String) : ConfigOption :=
  fun po => { po with overlapStrategy := v }

/-- Option `OverlapKey` of options.go. -/
def OverlapKey (v : String) : ConfigOption :=
  fun po => { po with overlapKey := v }

/-- Option `DisableStats` of options.go. -/
def DisableStats (v : Bool) : ConfigOption :=
  fun po => { po with disableStats := v }

/-- Option `WithEnablePrometheusStats` of options.go. -/
def WithEnablePrometheusStats (v : Bool) : ConfigOption :=
  fun po => { po with enablePrometheusStats := v }

end Crdb

namespace Service

/-! ## Read-only service behaviour

Modelled from the spec: the `serve-testing` read-only middleware is not
among the provided source files; only the docker test `TestTestServer`
exercising it is. Spec section 7 specifies the behaviour: `UNAVAILABLE —
datastore transiently unreachable, or service running read-only when a
write arrives`, and the test observes that a relationship write and a
schema write against the read-only endpoint fail as Unavailable
("service read-only" / `SERVICE_READ_ONLY`) while Check and schema read
succeed against the same endpoint. -/

/-- The error kinds surfaced by the core (spec section 7). -/
inductive ErrorKind where
  | invalidArgument : ErrorKind
  | failedPrecondition : ErrorKind
  | deadlineExceeded : ErrorKind
  | cancelledRequest : ErrorKind
  | exhaustedDepth : ErrorKind
  | unavailable : ErrorKind
  | internalError : ErrorKind
deriving Repr, DecidableEq

/-- The observable service state: the stored relationships (serialized
tuples), the stored schema text, and whether this endpoint is running
read-only. -/
structure ServerState where
  relationships : List String
  schema : String
  readonly : Bool
deriving Repr, DecidableEq

/-- A relationship write: fails with `UNAVAILABLE` and changes nothing
when the service runs read-only; otherwise stores the updates. -/
def writeRelationships (st : ServerState) (updates : List String) :
    Except ErrorKind Unit × ServerState :=
  if st.readonly then (Except.error ErrorKind.unavailable, st)
  else (Except.ok (), { st with relationships := updates ++ st.relationships })

/-- A schema write: fails with `UNAVAILABLE` and changes nothing when the
service runs read-only; otherwise replaces the schema. -/
def writeSchema (st : ServerState) (newSchema : String) :
    Except ErrorKind Unit × ServerState :=
  if st.readonly then (Except.error ErrorKind.unavailable, st)
  else (Except.ok (), { st with schema := newSchema })

/-- A permission check: a read that succeeds regardless of the read-only
flag (presence of the matching relationship). -/
def checkPermission (st : ServerState) (rel : String) :
    Except ErrorKind Bool × ServerState :=
  (Except.ok (st.relationships.contains rel), st)

/-- A schema read: succeeds regardless of the read-only flag. -/
def readSchema (st : ServerState) : Except ErrorKind String × ServerState :=
  (Except.ok st.schema, st)

end Service

/-! # Theorems -/

/-- Helper: a validated `ObjectAndRelation` satisfies each field's pattern
and byte bound. -/
theorem validObjectAndRelation_fields (o : Proto.ObjectAndRelation)
    (h : Proto.validObjectAndRelation o = true) :
    Proto.matchNamespacePattern o.namespc = true ∧ Proto.utf8Len o.namespc ≤ 128 ∧
    Proto.matchObjectIdPattern o.objectId = true ∧ Proto.utf8Len o.objectId ≤ 1024 ∧
    Proto.matchRelationPattern o.relationName = true ∧ Proto.utf8Len o.relationName ≤ 64 := by
  simp only [Proto.validObjectAndRelation, Bool.and_eq_true, decide_eq_true_eq] at h
  tauto

/-- Claim C7, counterexample: the relation `...` (the ellipsis accepted by
the relation pattern of core.proto) passes `ObjectAndRelation` validation
even though it does not match the lowercase identifier pattern, so the
claim that namespace and relation each match the lowercase identifier
pattern fails at this input. -/
theorem objectAndRelation_ellipsis_accepted :
    Proto.validObjectAndRelation ⟨"user", "someresource", "..."⟩ = true ∧
    Proto.specLowercaseIdentifier "..." = false := by
  exact ⟨rfl, rfl⟩

/-- Claim C7, amended: a validated `ObjectAndRelation` has a namespace
matching the lowercase identifier pattern (with its optional lowercase
prefix segment), a relation matching the lowercase identifier pattern or
equal to the ellipsis `...`, and an object_id that is either the wildcard
`*` or a non-empty string of the allowed identifier characters; a value
failing any of the three field patterns is rejected by validation. -/
theorem objectAndRelation_validation_patterns :
    (∀ o : Proto.ObjectAndRelation, Proto.validObjectAndRelation o = true →
      Proto.matchNamespacePattern o.namespc = true ∧
      (o.relationName = "..." ∨ Proto.specLowercaseIdentifier o.relationName = true) ∧
      (o.objectId = "*" ∨
        (1 ≤ o.objectId.toList.length ∧ o.objectId.toList.all Proto.isObjectIdChar = true))) ∧
    (∀ o : Proto.ObjectAndRelation,
      (Proto.matchNamespacePattern o.namespc = false ∨
       Proto.matchRelationPattern o.relationName = false ∨
       Proto.matchObjectIdPattern o.objectId = false) →
      Proto.validObjectAndRelation o = false) := by
  constructor
  · intro o h
    obtain ⟨hns, -, hoid, -, hrel, -⟩ := validObjectAndRelation_fields o h
    refine ⟨hns, ?_, ?_⟩
    · simpa [Proto.matchRelationPattern, Proto.specLowercaseIdentifier,
        Bool.or_eq_true, decide_eq_true_eq] using hrel
    · simpa [Proto.matchObjectIdPattern, Bool.or_eq_true, Bool.and_eq_true,
        decide_eq_true_eq] using hoid
  · intro o ho
    cases hval : Proto.validObjectAndRelation o with
    | false => rfl
    | true =>
      obtain ⟨hns, -, hoid, -, hrel, -⟩ := validObjectAndRelation_fields o hval
      rcases ho with h | h | h <;> simp [h] at hns hoid hrel

/-- Witness for the amended claim C7 at a concrete validated value. -/
theorem objectAndRelation_validation_patterns_witness :
    Proto.matchNamespacePattern
      (Proto.ObjectAndRelation.mk "resource" "someresource" "reader").namespc = true ∧
    ((Proto.ObjectAndRelation.mk "resource" "someresource" "reader").relationName = "..." ∨
      Proto.specLowercaseIdentifier
        (Proto.ObjectAndRelation.mk "resource" "someresource" "reader").relationName = true) ∧
    ((Proto.ObjectAndRelation.mk "resource" "someresource" "reader").objectId = "*" ∨
      (1 ≤ (Proto.ObjectAndRelation.mk "resource" "someresource" "reader").objectId.toList.length ∧
       (Proto.ObjectAndRelation.mk
          "resource" "someresource" "reader").objectId.toList.all Proto.isObjectIdChar = true)) :=
  objectAndRelation_validation_patterns.1
    (Proto.ObjectAndRelation.mk "resource" "someresource" "reader") rfl

/-- Claim C10: every valid `CaveatDefinition` has at least 1 and at most 20
entries in `parameter_types`, a `serialized_expression` of at most 4096
bytes, and a name of at most 128 bytes matching the caveat-name pattern;
by contraposition, a definition violating any of these bounds is rejected
by validation. -/
theorem caveatDefinition_bounds (cd : Proto.CaveatDefinition)
    (h : Proto.validCaveatDefinition cd = true) :
    1 ≤ cd.parameterTypes.length ∧ cd.parameterTypes.length ≤ 20 ∧
    cd.serializedExpression.length ≤ 4096 ∧
    Proto.utf8Len cd.name ≤ 128 ∧ Proto.matchCaveatNamePattern cd.name = true := by
  simp only [Proto.validCaveatDefinition, Bool.and_eq_true, decide_eq_true_eq] at h
  tauto

/-- Witness for claim C10 at a concrete validated caveat definition. -/
theorem caveatDefinition_bounds_witness :
    1 ≤ (Proto.CaveatDefinition.mk "ip_in_range" [1, 2, 3]
          [("allowed_range", Proto.CaveatTypeReference.mk "ipaddress" [])]).parameterTypes.length ∧
    (Proto.CaveatDefinition.mk "ip_in_range" [1, 2, 3]
      [("allowed_range", Proto.CaveatTypeReference.mk "ipaddress" [])]).parameterTypes.length ≤ 20 ∧
    (Proto.CaveatDefinition.mk "ip_in_range" [1, 2, 3]
      [("allowed_range",
        Proto.CaveatTypeReference.mk "ipaddress" [])]).serializedExpression.length ≤ 4096 ∧
    Proto.utf8Len (Proto.CaveatDefinition.mk "ip_in_range" [1, 2, 3]
      [("allowed_range", Proto.CaveatTypeReference.mk "ipaddress" [])]).name ≤ 128 ∧
    Proto.matchCaveatNamePattern (Proto.CaveatDefinition.mk "ip_in_range" [1, 2, 3]
      [("allowed_range", Proto.CaveatTypeReference.mk "ipaddress" [])]).name = true :=
  caveatDefinition_bounds
    (Proto.CaveatDefinition.mk "ip_in_range" [1, 2, 3]
      [("allowed_range", Proto.CaveatTypeReference.mk "ipaddress" [])]) rfl

/-- Claim C6, counterexample: an exclusion `SetOperation` with three
children passes validation (the proto constrains children only by
`min_items = 1`), so the claim that a validated exclusion has exactly two
children fails at this input. -/
theorem exclusion_three_children_validates :
    Proto.validUsersetRewrite
      (Proto.UsersetRewrite.exclusion
        (Proto.SetOperation.mk
          [Proto.SetOperationChild.this, Proto.SetOperationChild.this,
           Proto.SetOperationChild.this])) = true ∧
    (Proto.SetOperation.mk
      [Proto.SetOperationChild.this, Proto.SetOperationChild.this,
       Proto.SetOperationChild.this]).children.length = 3 :=
  ⟨rfl, rfl⟩

/-- Claim C6, amended: the validation of core.proto constrains the children
of every set operation, exclusions included, only by `min_items = 1`: a
validated exclusion has at least one child, and neither a two-child shape
nor any upper bound is enforced. -/
theorem valid_exclusion_at_least_one_child (so : Proto.SetOperation)
    (h : Proto.validUsersetRewrite (Proto.UsersetRewrite.exclusion so) = true) :
    1 ≤ so.children.length := by
  cases so with
  | mk children =>
    simp only [Proto.validUsersetRewrite, Proto.validSetOperation, Bool.and_eq_true,
      decide_eq_true_eq] at h
    exact h.1

/-- Witness for the amended claim C6 at a concrete validated exclusion. -/
theorem valid_exclusion_at_least_one_child_witness :
    1 ≤ (Proto.SetOperation.mk [Proto.SetOperationChild.this]).children.length :=
  valid_exclusion_at_least_one_child (Proto.SetOperation.mk [Proto.SetOperationChild.this]) rfl

/-- Claim C4, counterexample: `ReadWriteTx` and `Watch` pass the incoming
context to the delegate unchanged, so a deadline or cancel signal on the
incoming context reaches the delegate through these two methods,
contradicting the claim for every datastore method. -/
theorem delegateContext_tx_watch_unsevered :
    (Proxy.delegateContext Proxy.DatastoreMethod.readWriteTx
      ⟨some 1, some 2, some 99, some 7⟩).deadline = some 99 ∧
    (Proxy.delegateContext Proxy.DatastoreMethod.watch
      ⟨some 1, some 2, some 99, some 7⟩).cancelSignal = some 7 :=
  ⟨rfl, rfl⟩

/-- Claim C4, amended: for every datastore or reader method other than
`ReadWriteTx` and `Watch`, the context passed to the delegate carries
exactly the tracing span and logger of the incoming context and no
deadline and no cancellation, so cancelling or timing out the incoming
context never cancels those delegate calls. -/
theorem delegateContext_severed_except_tx_watch (m : Proxy.DatastoreMethod)
    (ctx : Proxy.Context)
    (h1 : m ≠ Proxy.DatastoreMethod.readWriteTx)
    (h2 : m ≠ Proxy.DatastoreMethod.watch) :
    Proxy.delegateContext m ctx = ⟨ctx.span, ctx.logger, none, none⟩ := by
  cases m with
  | readWriteTx => exact absurd rfl h1
  | watch => exact absurd rfl h2
  | _ => rfl

/-- Witness for the amended claim C4 at a concrete method and context. -/
theorem delegateContext_severed_witness :
    Proxy.delegateContext Proxy.DatastoreMethod.queryRelationships
      ⟨some 1, some 2, some 99, some 7⟩ = ⟨some 1, some 2, none, none⟩ :=
  delegateContext_severed_except_tx_watch Proxy.DatastoreMethod.queryRelationships
    ⟨some 1, some 2, some 99, some 7⟩ (by decide) (by decide)

/-- Claim C8: on a read-only service, a relationship write and a schema
write each fail with the `UNAVAILABLE` error kind and leave the stored
relationships and schema unchanged, while a permission check and a schema
read on the same service succeed. -/
theorem readonly_writes_unavailable_reads_succeed (st : Service.ServerState)
    (updates : List String) (newSchema rel : String) (h : st.readonly = true) :
    Service.writeRelationships st updates = (Except.error Service.ErrorKind.unavailable, st) ∧
    Service.writeSchema st newSchema = (Except.error Service.ErrorKind.unavailable, st) ∧
    Service.checkPermission st rel = (Except.ok (st.relationships.contains rel), st) ∧
    Service.readSchema st = (Except.ok st.schema, st) := by
  simp [Service.writeRelationships, Service.writeSchema, Service.checkPermission,
    Service.readSchema, h]

/-- Witness for claim C8 at a concrete read-only server state. -/
theorem readonly_writes_unavailable_witness :
    Service.writeRelationships
        (Service.ServerState.mk ["resource:someresource#reader@user:somegal"] "definition user" true)
        ["resource:other#reader@user:somegal"] =
      (Except.error Service.ErrorKind.unavailable,
       Service.ServerState.mk ["resource:someresource#reader@user:somegal"] "definition user" true) ∧
    Service.writeSchema
        (Service.ServerState.mk ["resource:someresource#reader@user:somegal"] "definition user" true)
        "definition resource" =
      (Except.error Service.ErrorKind.unavailable,
       Service.ServerState.mk ["resource:someresource#reader@user:somegal"] "definition user" true) ∧
    Service.checkPermission
        (Service.ServerState.mk ["resource:someresource#reader@user:somegal"] "definition user" true)
        "resource:someresource#reader@user:somegal" =
      (Except.ok
        ((Service.ServerState.mk ["resource:someresource#reader@user:somegal"] "definition user"
            true).relationships.contains "resource:someresource#reader@user:somegal"),
       Service.ServerState.mk ["resource:someresource#reader@user:somegal"] "definition user" true) ∧
    Service.readSchema
        (Service.ServerState.mk ["resource:someresource#reader@user:somegal"] "definition user" true) =
      (Except.ok "definition user",
       Service.ServerState.mk ["resource:someresource#reader@user:somegal"] "definition user" true) :=
  readonly_writes_unavailable_reads_succeed
    (Service.ServerState.mk ["resource:someresource#reader@user:somegal"] "definition user" true)
    ["resource:other#reader@user:somegal"] "definition resource"
    "resource:someresource#reader@user:somegal" rfl

/-- Helper: a field projection untouched by every option in the list is
preserved by the option fold of `generateConfig`. -/
theorem foldOptions_proj_const {α : Type} (g : Crdb.crdbOptions → α) :
    ∀ (options : List Crdb.ConfigOption) (c : Crdb.crdbOptions),
      (∀ o ∈ options, ∀ x, g (o x) = g x) →
      g (options.foldl (fun c o => o c) c) = g c := by
  intro options
  induction options with
  | nil => intro c _; rfl
  | cons o rest ih =>
    intro c hall
    simp only [List.foldl_cons]
    rw [ih (o c) fun o' ho' x => hall o' (List.mem_cons_of_mem _ ho') x]
    exact hall o (List.mem_cons_self _ _) c

/-- Helper: appending one option applies it to the configuration computed
from the preceding options. -/
theorem applyOptions_append_single (options : List Crdb.ConfigOption)
    (o : Crdb.ConfigOption) :
    Crdb.applyOptions (options ++ [o]) = o (Crdb.applyOptions options) := by
  simp [Crdb.applyOptions, List.foldl_append]

/-- Claim C9: `generateConfig` errors exactly when the computed
`revisionQuantization` is at least the computed `gcWindow`; a field
untouched by every option keeps its documented default (gcWindow 24h,
revisionQuantization 5s, watchBufferLength 128,
maxRevisionStalenessPercent 0.1, splitAtUsersetCount 1024, maxRetries 5,
overlapStrategy "static"); and options apply in list order, so the last
option setting a field wins. -/
theorem generateConfig_spec :
    (∀ options, ((Crdb.generateConfig options).2.isSome = true ↔
      (Crdb.applyOptions options).gcWindow ≤ (Crdb.applyOptions options).revisionQuantization)) ∧
    (∀ options, (∀ o ∈ options, ∀ c, (o c).gcWindow = c.gcWindow) →
      (Crdb.applyOptions options).gcWindow = 24 * 3600 * Crdb.secondNs) ∧
    (∀ options, (∀ o ∈ options, ∀ c, (o c).revisionQuantization = c.revisionQuantization) →
      (Crdb.applyOptions options).revisionQuantization = 5 * Crdb.secondNs) ∧
    (∀ options, (∀ o ∈ options, ∀ c, (o c).watchBufferLength = c.watchBufferLength) →
      (Crdb.applyOptions options).watchBufferLength = 128) ∧
    (∀ options,
      (∀ o ∈ options, ∀ c, (o c).maxRevisionStalenessPercent = c.maxRevisionStalenessPercent) →
      (Crdb.applyOptions options).maxRevisionStalenessPercent = 1 / 10) ∧
    (∀ options, (∀ o ∈ options, ∀ c, (o c).splitAtUsersetCount = c.splitAtUsersetCount) →
      (Crdb.applyOptions options).splitAtUsersetCount = 1024) ∧
    (∀ options, (∀ o ∈ options, ∀ c, (o c).maxRetries = c.maxRetries) →
      (Crdb.applyOptions options).maxRetries = 5) ∧
    (∀ options, (∀ o ∈ options, ∀ c, (o c).overlapStrategy = c.overlapStrategy) →
      (Crdb.applyOptions options).overlapStrategy = "static") ∧
    (∀ options v, (Crdb.applyOptions (options ++ [Crdb.GCWindow v])).gcWindow = v) ∧
    (∀ options v,
      (Crdb.applyOptions (options ++ [Crdb.RevisionQuantization v])).revisionQuantization = v) ∧
    (∀ options v,
      (Crdb.applyOptions (options ++ [Crdb.WatchBufferLength v])).watchBufferLength = v) ∧
    (∀ options v,
      (Crdb.applyOptions
        (options ++ [Crdb.MaxRevisionStalenessPercent v])).maxRevisionStalenessPercent = v) ∧
    (∀ options v,
      (Crdb.applyOptions (options ++ [Crdb.SplitAtUsersetCount v])).splitAtUsersetCount = v) ∧
    (∀ options v, (Crdb.applyOptions (options ++ [Crdb.MaxRetries v])).maxRetries = v) ∧
    (∀ options v, (Crdb.applyOptions (options ++ [Crdb.OverlapStrategy v])).overlapStrategy = v) := by
  refine ⟨?_, ?_, ?_, ?_, ?_, ?_, ?_, ?_, ?_, ?_, ?_, ?_, ?_, ?_, ?_⟩
  · intro options
    by_cases hc :
        (Crdb.applyOptions options).gcWindow ≤ (Crdb.applyOptions options).revisionQuantization
    · simp [Crdb.generateConfig, ge_iff_le, hc]
    · simp [Crdb.generateConfig, ge_iff_le, hc]
  · intro options h; exact foldOptions_proj_const (fun c => c.gcWindow) options Crdb.defaultConfig h
  · intro options h
    exact foldOptions_proj_const (fun c => c.revisionQuantization) options Crdb.defaultConfig h
  · intro options h
    exact foldOptions_proj_const (fun c => c.watchBufferLength) options Crdb.defaultConfig h
  · intro options h
    exact foldOptions_proj_const
      (fun c => c.maxRevisionStalenessPercent) options Crdb.defaultConfig h
  · intro options h
    exact foldOptions_proj_const (fun c => c.splitAtUsersetCount) options Crdb.defaultConfig h
  · intro options h; exact foldOptions_proj_const (fun c => c.maxRetries) options Crdb.defaultConfig h
  · intro options h
    exact foldOptions_proj_const (fun c => c.overlapStrategy) options Crdb.defaultConfig h
  · intro options v; rw [applyOptions_append_single]; rfl
  · intro options v; rw [applyOptions_append_single]; rfl
  · intro options v; rw [applyOptions_append_single]; rfl
  · intro options v; rw [applyOptions_append_single]; rfl
  · intro options v; rw [applyOptions_append_single]; rfl
  · intro options v; rw [applyOptions_append_single]; rfl
  · intro options v; rw [applyOptions_append_single]; rfl

/-- Witness for claim C9: the defaults conjuncts applied to a concrete
option list that touches none of the documented fields, and the error
conjunct at a list making quantization exceed the GC window. -/
theorem generateConfig_spec_witness :
    (Crdb.applyOptions [Crdb.DisableStats true]).gcWindow = 24 * 3600 * Crdb.secondNs ∧
    (Crdb.applyOptions [Crdb.OverlapKey "k"]).revisionQuantization = 5 * Crdb.secondNs ∧
    (Crdb.applyOptions []).watchBufferLength = 128 ∧
    (Crdb.applyOptions []).maxRevisionStalenessPercent = 1 / 10 ∧
    (Crdb.applyOptions []).splitAtUsersetCount = 1024 ∧
    (Crdb.applyOptions []).maxRetries = 5 ∧
    (Crdb.applyOptions []).overlapStrategy = "static" ∧
    ((Crdb.generateConfig [Crdb.GCWindow 1]).2.isSome = true ↔
      (Crdb.applyOptions [Crdb.GCWindow 1]).gcWindow ≤
        (Crdb.applyOptions [Crdb.GCWindow 1]).revisionQuantization) := by
  refine ⟨?_, ?_, ?_, ?_, ?_, ?_, ?_, ?_⟩
  · exact generateConfig_spec.2.1 [Crdb.DisableStats true]
      (by intro o ho c; simp only [List.mem_singleton] at ho; subst ho; rfl)
  · exact generateConfig_spec.2.2.1 [Crdb.OverlapKey "k"]
      (by intro o ho c; simp only [List.mem_singleton] at ho; subst ho; rfl)
  · exact generateConfig_spec.2.2.2.1 [] (by intro o ho c; simp at ho)
  · exact generateConfig_spec.2.2.2.2.1 [] (by intro o ho c; simp at ho)
  · exact generateConfig_spec.2.2.2.2.2.1 [] (by intro o ho c; simp at ho)
  · exact generateConfig_spec.2.2.2.2.2.2.1 [] (by intro o ho c; simp at ho)
  · exact generateConfig_spec.2.2.2.2.2.2.2.1 [] (by intro o ho c; simp at ho)
  · exact generateConfig_spec.1 [Crdb.GCWindow 1]

/-- Helper: an arrival that misses the cache joins or starts the refresh. -/
theorem step_arrive_miss (s : Int) (st : Revisions.CacheState) (id : Nat) (now : Int)
    (h : Revisions.cacheValidAt st.cached now = false) :
    Revisions.step s st (Revisions.CacheEvent.arrive id now) = Revisions.stepArriveMiss st id := by
  cases hc : st.cached with
  | none => simp [Revisions.step, hc]
  | some p =>
    obtain ⟨r, vu⟩ := p
    have hlt : ¬ now < vu := by
      simpa [Revisions.cacheValidAt, hc] using h
    simp [Revisions.step, hc, hlt]

/-- Helper: a cache miss with no refresh in flight starts one. -/
theorem stepArriveMiss_none (st : Revisions.CacheState) (id : Nat)
    (h : st.inflight = none) :
    Revisions.stepArriveMiss st id =
      { st with inflight := some [id], fetchCount := st.fetchCount + 1 } := by
  simp [Revisions.stepArriveMiss, h]

/-- Helper: a cache miss with a refresh in flight joins it. -/
theorem stepArriveMiss_some (st : Revisions.CacheState) (id : Nat) (ws : List Nat)
    (h : st.inflight = some ws) :
    Revisions.stepArriveMiss st id = { st with inflight := some (id :: ws) } := by
  simp [Revisions.stepArriveMiss, h]

/-- Helper: an arrival never changes the cached entry, the fetch count
changes only when a refresh is started, and the delivery log grows only on
a cache hit. -/
theorem step_arrive_cached_eq (s : Int) (st : Revisions.CacheState) (id : Nat) (now : Int) :
    (Revisions.step s st (Revisions.CacheEvent.arrive id now)).cached = st.cached := by
  cases hc : st.cached with
  | none => cases hi : st.inflight <;> simp [Revisions.step, Revisions.stepArriveMiss, hc, hi]
  | some p =>
    obtain ⟨r, vu⟩ := p
    by_cases hlt : now < vu <;>
      cases hi : st.inflight <;>
        simp [Revisions.step, Revisions.stepArriveMiss, hc, hi, hlt]

/-- Claim C1: a refresh completing at time `t` with revision `r` and
validity `v` under staleness budget `s` stores `valid_until = t + v + s`;
an `OptimizedRevision` call at `now < valid_until` is answered with the
cached revision, invoking nothing and changing nothing else; a call at
`now >= valid_until` (with no refresh in flight) invokes the datastore's
optimized-revision function once more, and once that refresh completes
with a new revision the caller receives that new revision. -/
theorem optimizedRevision_cache_contract :
    (∀ (s : Int) (st : Revisions.CacheState) (t r v : Int),
      (Revisions.step s st
        (Revisions.CacheEvent.complete t (Except.ok (r, v)))).cached = some (r, t + v + s)) ∧
    (∀ (s : Int) (st : Revisions.CacheState) (id : Nat) (now r vu : Int),
      st.cached = some (r, vu) → now < vu →
      Revisions.step s st (Revisions.CacheEvent.arrive id now) =
        { st with delivered := (id, Except.ok r) :: st.delivered }) ∧
    (∀ (s : Int) (st : Revisions.CacheState) (id : Nat) (now : Int),
      Revisions.cacheValidAt st.cached now = false → st.inflight = none →
      (Revisions.step s st (Revisions.CacheEvent.arrive id now)).fetchCount =
        st.fetchCount + 1 ∧
      ∀ (t r v : Int),
        (Revisions.step s (Revisions.step s st (Revisions.CacheEvent.arrive id now))
          (Revisions.CacheEvent.complete t (Except.ok (r, v)))).delivered =
          (id, Except.ok r) :: st.delivered) := by
  refine ⟨?_, ?_, ?_⟩
  · intro s st t r v
    rfl
  · intro s st id now r vu hc hlt
    simp [Revisions.step, hc, hlt]
  · intro s st id now hcv hin
    rw [step_arrive_miss s st id now hcv, stepArriveMiss_none st id hin]
    refine ⟨rfl, ?_⟩
    intro t r v
    simp [Revisions.step, Revisions.joinedWaiters]

/-- Witness for claim C1: the hit and miss parts at concrete states. -/
theorem optimizedRevision_cache_contract_witness :
    (Revisions.step 0 (Revisions.CacheState.mk (some (1, 10)) none 1 [])
      (Revisions.CacheEvent.arrive 3 5) =
      { Revisions.CacheState.mk (some (1, 10)) none 1 [] with
          delivered := [(3, Except.ok 1)] }) ∧
    (Revisions.step 0 Revisions.initialState (Revisions.CacheEvent.arrive 4 0)).fetchCount =
      Revisions.initialState.fetchCount + 1 ∧
    (Revisions.step 0 (Revisions.step 0 Revisions.initialState
        (Revisions.CacheEvent.arrive 4 0))
        (Revisions.CacheEvent.complete 9 (Except.ok (5, 2)))).delivered =
      (4, Except.ok 5) :: Revisions.initialState.delivered :=
  ⟨optimizedRevision_cache_contract.2.1 0 (Revisions.CacheState.mk (some (1, 10)) none 1 [])
      3 5 1 10 rfl (by decide),
   (optimizedRevision_cache_contract.2.2 0 Revisions.initialState 4 0 rfl rfl).1,
   (optimizedRevision_cache_contract.2.2 0 Revisions.initialState 4 0 rfl rfl).2 9 5 2⟩

/-- Claim C3: when the refresh completes with an error, every joined
waiter is failed with that same error, the cached entry and the fetch
count are unchanged and nothing is cached, and a later call that misses
the (unchanged) cache triggers a new refresh. -/
theorem singleFlight_error_fails_waiters (s : Int) (st : Revisions.CacheState)
    (t : Int) (e : String) (ws : List Nat) (h : st.inflight = some ws) :
    (Revisions.step s st (Revisions.CacheEvent.complete t (Except.error e))).cached =
      st.cached ∧
    (Revisions.step s st (Revisions.CacheEvent.complete t (Except.error e))).fetchCount =
      st.fetchCount ∧
    (Revisions.step s st (Revisions.CacheEvent.complete t (Except.error e))).inflight = none ∧
    (∀ id ∈ ws,
      (id, Except.error e) ∈
        (Revisions.step s st (Revisions.CacheEvent.complete t (Except.error e))).delivered) ∧
    (∀ (id' : Nat) (now' : Int), Revisions.cacheValidAt st.cached now' = false →
      (Revisions.step s (Revisions.step s st (Revisions.CacheEvent.complete t (Except.error e)))
        (Revisions.CacheEvent.arrive id' now')).fetchCount = st.fetchCount + 1) := by
  refine ⟨rfl, rfl, rfl, ?_, ?_⟩
  · intro id hid
    simp only [Revisions.step, h, Revisions.joinedWaiters, List.mem_append, List.mem_map]
    exact Or.inl ⟨id, hid, rfl⟩
  · intro id' now' hcv
    have hcached :
        (Revisions.step s st (Revisions.CacheEvent.complete t (Except.error e))).cached =
          st.cached := rfl
    rw [step_arrive_miss s _ id' now' (by rw [hcached]; exact hcv),
      stepArriveMiss_none _ id' rfl]
    rfl

/-- Witness for claim C3 at a concrete state with two joined waiters. -/
theorem singleFlight_error_fails_waiters_witness :
    (Revisions.step 0 (Revisions.CacheState.mk none (some [4, 7]) 1 [])
      (Revisions.CacheEvent.complete 9 (Except.error "fail"))).cached =
        (Revisions.CacheState.mk none (some [4, 7]) 1 []).cached ∧
    (Revisions.step 0 (Revisions.CacheState.mk none (some [4, 7]) 1 [])
      (Revisions.CacheEvent.complete 9 (Except.error "fail"))).inflight = none ∧
    (4, Except.error "fail") ∈
      (Revisions.step 0 (Revisions.CacheState.mk none (some [4, 7]) 1 [])
        (Revisions.CacheEvent.complete 9 (Except.error "fail"))).delivered ∧
    (Revisions.step 0
      (Revisions.step 0 (Revisions.CacheState.mk none (some [4, 7]) 1 [])
        (Revisions.CacheEvent.complete 9 (Except.error "fail")))
      (Revisions.CacheEvent.arrive 8 20)).fetchCount =
      (Revisions.CacheState.mk none (some [4, 7]) 1 []).fetchCount + 1 :=
  ⟨(singleFlight_error_fails_waiters 0 (Revisions.CacheState.mk none (some [4, 7]) 1 [])
      9 "fail" [4, 7] rfl).1,
   (singleFlight_error_fails_waiters 0 (Revisions.CacheState.mk none (some [4, 7]) 1 [])
      9 "fail" [4, 7] rfl).2.2.1,
   (singleFlight_error_fails_waiters 0 (Revisions.CacheState.mk none (some [4, 7]) 1 [])
      9 "fail" [4, 7] rfl).2.2.2.1 4 (by decide),
   (singleFlight_error_fails_waiters 0 (Revisions.CacheState.mk none (some [4, 7]) 1 [])
      9 "fail" [4, 7] rfl).2.2.2.2 8 20 rfl⟩

/-- Helper: while a refresh is in flight, a batch of arrivals that all
miss the cache joins the refresh: the cached entry, fetch count and
delivery log are unchanged, and the waiter set keeps the old waiters and
gains every arriving caller. -/
theorem runArrivals_join (s : Int) :
    ∀ (callers : List (Nat × Int)) (st : Revisions.CacheState) (ws : List Nat),
      st.inflight = some ws →
      (∀ p ∈ callers, Revisions.cacheValidAt st.cached p.2 = false) →
      ∃ ws',
        (Revisions.runEvents s st (Revisions.arrivalsOf callers)).inflight = some ws' ∧
        (Revisions.runEvents s st (Revisions.arrivalsOf callers)).cached = st.cached ∧
        (Revisions.runEvents s st (Revisions.arrivalsOf callers)).fetchCount = st.fetchCount ∧
        (Revisions.runEvents s st (Revisions.arrivalsOf callers)).delivered = st.delivered ∧
        (∀ id ∈ ws, id ∈ ws') ∧ (∀ p ∈ callers, p.1 ∈ ws') := by
  intro callers
  induction callers with
  | nil =>
    intro st ws hin _
    exact ⟨ws, hin, rfl, rfl, rfl, fun id hid => hid, fun p hp => absurd hp (List.not_mem_nil p)⟩
  | cons p rest ih =>
    intro st ws hin hinv
    obtain ⟨id, t⟩ := p
    have hstep : Revisions.step s st (Revisions.CacheEvent.arrive id t) =
        { st with inflight := some (id :: ws) } := by
      rw [step_arrive_miss s st id t (hinv (id, t) (List.mem_cons_self _ _)),
        stepArriveMiss_some st id ws hin]
    have hrun : Revisions.runEvents s st (Revisions.arrivalsOf ((id, t) :: rest)) =
        Revisions.runEvents s ({ st with inflight := some (id :: ws) })
          (Revisions.arrivalsOf rest) := by
      simp only [Revisions.arrivalsOf, List.map_cons, Revisions.runEvents, List.foldl_cons]
      rw [hstep]
    obtain ⟨ws', h1, h2, h3, h4, h5, h6⟩ :=
      ih { st with inflight := some (id :: ws) } (id :: ws) rfl
        (fun q hq => hinv q (List.mem_cons_of_mem _ hq))
    refine ⟨ws', ?_, ?_, ?_, ?_, ?_, ?_⟩
    · rw [hrun]; exact h1
    · rw [hrun]; exact h2
    · rw [hrun]; exact h3
    · rw [hrun]; exact h4
    · exact fun i hi => h5 i (List.mem_cons_of_mem _ hi)
    · intro q hq
      rcases List.mem_cons.mp hq with hq | hq
      · subst hq; exact h5 id (List.mem_cons_self _ _)
      · exact h6 q hq

/-- Claim C2: with no valid cached revision and no refresh in flight, any
batch of one or more concurrent `OptimizedRevision` calls (each missing
the cache) causes exactly one invocation of the datastore's
optimized-revision function, and when that single refresh completes with
revision `r` every caller in the batch is answered with `r`. -/
theorem singleFlight_refresh_once (s : Int) (callers : List (Nat × Int))
    (st : Revisions.CacheState) (t r v : Int)
    (hne : callers ≠ [])
    (hin : st.inflight = none)
    (hinv : ∀ p ∈ callers, Revisions.cacheValidAt st.cached p.2 = false) :
    (Revisions.step s (Revisions.runEvents s st (Revisions.arrivalsOf callers))
      (Revisions.CacheEvent.complete t (Except.ok (r, v)))).fetchCount =
      st.fetchCount + 1 ∧
    ∀ p ∈ callers,
      (p.1, Except.ok r) ∈
        (Revisions.step s (Revisions.runEvents s st (Revisions.arrivalsOf callers))
          (Revisions.CacheEvent.complete t (Except.ok (r, v)))).delivered := by
  cases callers with
  | nil => exact absurd rfl hne
  | cons p rest =>
    obtain ⟨id, t₀⟩ := p
    have hstep : Revisions.step s st (Revisions.CacheEvent.arrive id t₀) =
        { st with inflight := some [id], fetchCount := st.fetchCount + 1 } := by
      rw [step_arrive_miss s st id t₀ (hinv (id, t₀) (List.mem_cons_self _ _)),
        stepArriveMiss_none st id hin]
    have hrun : Revisions.runEvents s st (Revisions.arrivalsOf ((id, t₀) :: rest)) =
        Revisions.runEvents s
          ({ st with inflight := some [id], fetchCount := st.fetchCount + 1 })
          (Revisions.arrivalsOf rest) := by
      simp only [Revisions.arrivalsOf, List.map_cons, Revisions.runEvents, List.foldl_cons]
      rw [hstep]
    obtain ⟨ws', h1, h2, h3, h4, h5, h6⟩ :=
      runArrivals_join s rest
        { st with inflight := some [id], fetchCount := st.fetchCount + 1 } [id] rfl
        (fun q hq => hinv q (List.mem_cons_of_mem _ hq))
    constructor
    · rw [hrun]
      simp only [Revisions.step]
      exact h3
    · intro q hq
      rw [hrun]
      simp only [Revisions.step, h1, Revisions.joinedWaiters, List.mem_append, List.mem_map]
      refine Or.inl ⟨q.1, ?_, rfl⟩
      rcases List.mem_cons.mp hq with hq | hq
      · subst hq; exact h5 id (List.mem_cons_self _ _)
      · exact h6 q hq

/-- Witness for claim C2: three concurrent callers on an empty cache cause
exactly one fetch, and the first caller receives the fetched revision. -/
theorem singleFlight_refresh_once_witness :
    (Revisions.step 0 (Revisions.runEvents 0 Revisions.initialState
      (Revisions.arrivalsOf [(1, 0), (2, 1), (3, 2)]))
      (Revisions.CacheEvent.complete 4 (Except.ok (5, 0)))).fetchCount =
      Revisions.initialState.fetchCount + 1 ∧
    (1, Except.ok 5) ∈
      (Revisions.step 0 (Revisions.runEvents 0 Revisions.initialState
        (Revisions.arrivalsOf [(1, 0), (2, 1), (3, 2)]))
        (Revisions.CacheEvent.complete 4 (Except.ok (5, 0)))).delivered :=
  ⟨(singleFlight_refresh_once 0 [(1, 0), (2, 1), (3, 2)] Revisions.initialState 4 5 0
      (by decide) rfl (fun p _ => rfl)).1,
   (singleFlight_refresh_once 0 [(1, 0), (2, 1), (3, 2)] Revisions.initialState 4 5 0
      (by decide) rfl (fun p _ => rfl)).2 (1, 0) (by decide)⟩

/-- Helper: membership in the entrypoints of a child list, as a child
index, the child at that index, and an entrypoint of that child whose path
gets the index (offset by the starting index) prepended. -/
theorem mem_entrypointsOfChildren (st : Reach.EntrypointResultStatus) :
    ∀ (cs : List Reach.RewriteNode) (i : Nat) (e : Reach.Entrypoint),
      e ∈ Reach.entrypointsOfChildren st i cs ↔
        ∃ j c e', cs.get? j = some c ∧ e' ∈ Reach.entrypointsOfNode st c ∧
          e = ⟨(i + j) :: e'.path, e'.kind, e'.status⟩ := by
  intro cs
  induction cs with
  | nil =>
    intro i e
    simp [Reach.entrypointsOfChildren]
  | cons c rest ih =>
    intro i e
    simp only [Reach.entrypointsOfChildren, List.mem_append, List.mem_map, ih]
    constructor
    · rintro (⟨e', he', rfl⟩ | ⟨j, c', e', hj, he', rfl⟩)
      · exact ⟨0, c, e', rfl, he', by simp⟩
      · refine ⟨j + 1, c', e', by simpa using hj, he', ?_⟩
        have harith : i + (j + 1) = i + 1 + j := by omega
        rw [harith]
    · rintro ⟨j, c', e', hj, he', rfl⟩
      cases j with
      | zero =>
        left
        simp only [List.get?_cons_zero, Option.some.injEq] at hj
        subst hj
        exact ⟨e', he', by simp⟩
      | succ k =>
        right
        refine ⟨k, c', e', by simpa using hj, he', ?_⟩
        have harith : i + (k + 1) = i + 1 + k := by omega
        rw [harith]


/-- Helper: walking a rewrite tree with result status `st`, an entrypoint
it produces is direct exactly when `st` is direct and every set operation
along the entrypoint's path is a union. -/
theorem entrypoint_status_aux :
    ∀ (p : List Nat) (node : Reach.RewriteNode) (st : Reach.EntrypointResultStatus)
      (e : Reach.Entrypoint), e.path = p → e ∈ Reach.entrypointsOfNode st node →
      (e.status = Reach.EntrypointResultStatus.directOperationResult ↔
        (st = Reach.EntrypointResultStatus.directOperationResult ∧
         (Reach.opsOnPath p node).all Reach.SetOpType.isUnion = true)) := by
  intro p
  induction p with
  | nil =>
    intro node st e hp hmem
    cases node with
    | this =>
      simp only [Reach.entrypointsOfNode, List.mem_singleton] at hmem
      subst hmem
      simp [Reach.opsOnPath]
    | computedUserset rel =>
      simp only [Reach.entrypointsOfNode, List.mem_singleton] at hmem
      subst hmem
      simp [Reach.opsOnPath]
    | tupleToUserset ts rel =>
      simp only [Reach.entrypointsOfNode, List.mem_singleton] at hmem
      subst hmem
      simp [Reach.opsOnPath]
    | nilLeaf =>
      simp [Reach.entrypointsOfNode] at hmem
    | op t cs =>
      rw [show Reach.entrypointsOfNode st (Reach.RewriteNode.op t cs) =
          Reach.entrypointsOfChildren (Reach.childStatus t st) 0 cs from rfl] at hmem
      obtain ⟨j, c, e', hj, he', heq⟩ :=
        (mem_entrypointsOfChildren (Reach.childStatus t st) cs 0 e).mp hmem
      subst heq
      have hp2 : (0 + j) :: e'.path = ([] : List Nat) := hp
      exact absurd hp2 (List.cons_ne_nil _ _)
  | cons idx p' ih =>
    intro node st e hp hmem
    cases node with
    | this =>
      simp only [Reach.entrypointsOfNode, List.mem_singleton] at hmem
      subst hmem
      simp at hp
    | computedUserset rel =>
      simp only [Reach.entrypointsOfNode, List.mem_singleton] at hmem
      subst hmem
      simp at hp
    | tupleToUserset ts rel =>
      simp only [Reach.entrypointsOfNode, List.mem_singleton] at hmem
      subst hmem
      simp at hp
    | nilLeaf =>
      simp [Reach.entrypointsOfNode] at hmem
    | op t cs =>
      rw [show Reach.entrypointsOfNode st (Reach.RewriteNode.op t cs) =
          Reach.entrypointsOfChildren (Reach.childStatus t st) 0 cs from rfl] at hmem
      obtain ⟨j, c, e', hj, he', heq⟩ :=
        (mem_entrypointsOfChildren (Reach.childStatus t st) cs 0 e).mp hmem
      subst heq
      have hp2 : (0 + j) :: e'.path = idx :: p' := hp
      injection hp2 with hj0 hpath
      have hidx : idx = j := by omega
      subst hidx
      have ihc := ih c (Reach.childStatus t st) e' hpath he'
      have hops : Reach.opsOnPath (idx :: p') (Reach.RewriteNode.op t cs) =
          t :: Reach.opsOnPath p' c := by
        simp only [Reach.opsOnPath, hj]
      show e'.status = Reach.EntrypointResultStatus.directOperationResult ↔
        (st = Reach.EntrypointResultStatus.directOperationResult ∧
         (Reach.opsOnPath (idx :: p')
            (Reach.RewriteNode.op t cs)).all Reach.SetOpType.isUnion = true)
      rw [hops]
      simp only [List.all_cons, Bool.and_eq_true]
      cases t with
      | union =>
        simpa [Reach.childStatus, Reach.SetOpType.isUnion] using ihc
      | intersection =>
        simp only [Reach.childStatus] at ihc
        simp [Reach.SetOpType.isUnion, ihc]
      | exclusion =>
        simp only [Reach.childStatus] at ihc
        simp [Reach.SetOpType.isUnion, ihc]

/-- Claim C5: an entrypoint of a relation's reachability graph has
result status `DIRECT_OPERATION_RESULT` exactly when every ancestor set
operation of its position in the rewrite tree, walking upward, is a
union; beneath at least one intersection or exclusion its status is
`REACHABLE_CONDITIONAL_RESULT`. -/
theorem entrypoint_direct_iff_all_union (root : Reach.RewriteNode) (e : Reach.Entrypoint)
    (h : e ∈ Reach.entrypoints root) :
    e.status = Reach.EntrypointResultStatus.directOperationResult ↔
      (Reach.opsOnPath e.path root).all Reach.SetOpType.isUnion = true := by
  have haux := entrypoint_status_aux e.path root
    Reach.EntrypointResultStatus.directOperationResult e rfl h
  simpa using haux

/-- Witness for claim C5 at a concrete rewrite tree (a union of `_this`
and an exclusion), whose second-child entrypoints sit beneath an
exclusion. -/
theorem entrypoint_direct_iff_all_union_witness :
    (Reach.Entrypoint.mk [1, 1] Reach.EntrypointKind.computedUsersetEntrypoint
      Reach.EntrypointResultStatus.reachableConditionalResult).status =
        Reach.EntrypointResultStatus.directOperationResult ↔
      (Reach.opsOnPath
        (Reach.Entrypoint.mk [1, 1] Reach.EntrypointKind.computedUsersetEntrypoint
          Reach.EntrypointResultStatus.reachableConditionalResult).path
        (Reach.RewriteNode.op Reach.SetOpType.union
          [Reach.RewriteNode.this,
           Reach.RewriteNode.op Reach.SetOpType.exclusion
             [Reach.RewriteNode.this,
              Reach.RewriteNode.computedUserset "admin"]])).all
        Reach.SetOpType.isUnion = true :=
  entrypoint_direct_iff_all_union
    (Reach.RewriteNode.op Reach.SetOpType.union
      [Reach.RewriteNode.this,
       Reach.RewriteNode.op Reach.SetOpType.exclusion
         [Reach.RewriteNode.this,
          Reach.RewriteNode.computedUserset "admin"]])
    (Reach.Entrypoint.mk [1, 1] Reach.EntrypointKind.computedUsersetEntrypoint
      Reach.EntrypointResultStatus.reachableConditionalResult)
    (by decide)

/-- The revision-cache model replays test case "single request" of
`TestOptimizedRevisionCache`. -/
theorem cacheReplay_singleRequest :
    Revisions.runSequential 0 [0] none [(1, 0)] = [1] := rfl

/-- The revision-cache model replays test case "simple no caching request"
of `TestOptimizedRevisionCache` (calls every 5ms, zero validity). -/
theorem cacheReplay_noCaching :
    Revisions.runSequential 0 [0, 5, 10] none [(1, 0), (2, 0), (3, 0)] = [1, 2, 3] := rfl

/-- The revision-cache model replays test case "simple cached once" of
`TestOptimizedRevisionCache` (7ms validity covers one later call). -/
theorem cacheReplay_cachedOnce :
    Revisions.runSequential 0 [0, 5, 10] none [(1, 7), (2, 0)] = [1, 1, 2] := rfl

/-- The revision-cache model replays test case "cached by staleness" of
`TestOptimizedRevisionCache` (zero validity but 7ms staleness budget). -/
theorem cacheReplay_cachedByStaleness :
    Revisions.runSequential 7 [0, 5, 10, 15] none [(1, 0), (2, 0)] = [1, 1, 2, 2] := rfl

/-- The revision-cache model replays test case "cached by staleness and
validity" of `TestOptimizedRevisionCache` (4ms validity plus 2ms
staleness). -/
theorem cacheReplay_stalenessAndValidity :
    Revisions.runSequential 2 [0, 5, 10, 15] none [(1, 4), (2, 0), (3, 0)] = [1, 1, 2, 3] := rfl

/-- The revision-cache model replays test case "cached for a while" of
`TestOptimizedRevisionCache` (28ms validity covers five later calls). -/
theorem cacheReplay_cachedForAWhile :
    Revisions.runSequential 0 [0, 5, 10, 15, 20, 25, 30] none [(1, 28), (2, 0)] =
      [1, 1, 1, 1, 1, 1, 2] := rfl
